import Mathlib

/-!
Shallow embedding of `src/godel-t.ts`, a small implementation of Gödel's
System T over natural numbers, together with theorems checking the
repository's specification.  Every definition below mirrors the
corresponding TypeScript function; the host `number` carrier restricted to
non-negative integers is modelled by `Nat`.
-/

namespace GodelT

universe u

/-- `const Zero = 0`. -/
def Zero : Nat := 0

/-- `const Succ = (x) => x + 1`. -/
def Succ (x : Nat) : Nat := x + 1

/-- `Cases(cond, a, b) = cond ? a : b` — the generic if-then-else. -/
def Cases {T : Type u} (c : Bool) (a b : T) : T :=
  if c then a else b

/-- `Rec(sn, s, t) = sn === 0 ? s : t(sn - 1, Rec(sn - 1, s, t))` —
the primitive recursor. -/
def Rec {T : Type u} (sn : Nat) (s : T) (t : Nat → T → T) : T :=
  match sn with
  | 0 => s
  | n + 1 => t n (Rec n s t)

/-- `add(x, y) = Rec(x, y, (z, w) => Succ(w))`. -/
def add (x y : Nat) : Nat :=
  Rec x y (fun z w => Succ w)

/-- `multiply(x, y) = Rec(y, Zero, (z, w) => add(x, w))`. -/
def multiply (x y : Nat) : Nat :=
  Rec y Zero (fun z w => add x w)

/-- `exp(x, y) = Rec(y, 1, (z, w) => multiply(x, w))`. -/
def exp (x y : Nat) : Nat :=
  Rec y 1 (fun z w => multiply x w)

/-- `double(x) = Rec(x, Zero, (z, w) => Succ(Succ(w)))`. -/
def double (x : Nat) : Nat :=
  Rec x Zero (fun z w => Succ (Succ w))

/-- `pred(x) = Rec(x, Zero, (z, w) => z)`. -/
def pred (x : Nat) : Nat :=
  Rec x Zero (fun z w => z)

/-- `subtract(x, y) = Rec(y, x, (z, w) => pred(w))`. -/
def subtract (x y : Nat) : Nat :=
  Rec y x (fun z w => pred w)

/-- `isZero(x) = Rec(x, true, (z, w) => false)`. -/
def isZero (x : Nat) : Bool :=
  Rec x true (fun z w => false)

/-- `not(x) = Cases(x, false, true)`. -/
def not (x : Bool) : Bool :=
  Cases x false true

/-- `and(x, y) = Cases(x, y, false)`. -/
def and (x y : Bool) : Bool :=
  Cases x y false

/-- `or(x, y) = Cases(x, true, y)`. -/
def or (x y : Bool) : Bool :=
  Cases x true y

/-- `xor(x, y) = Cases(x, not(y), y)`. -/
def xor (x y : Bool) : Bool :=
  Cases x (not y) y

/-- `eq(x, y) = and(isZero(subtract(x, y)), isZero(subtract(y, x)))`. -/
def eq (x y : Nat) : Bool :=
  and (isZero (subtract x y)) (isZero (subtract y x))

/-- `gt(x, y) = not(isZero(subtract(x, y)))`. -/
def gt (x y : Nat) : Bool :=
  not (isZero (subtract x y))

/-- `lt(x, y) = not(isZero(subtract(y, x)))`. -/
def lt (x y : Nat) : Bool :=
  not (isZero (subtract y x))

/-- `gte(x, y) = or(eq(x, y), gt(x, y))`. -/
def gte (x y : Nat) : Bool :=
  or (eq x y) (gt x y)

/-- `lte(x, y) = or(eq(x, y), lt(x, y))`. -/
def lte (x y : Nat) : Bool :=
  or (eq x y) (lt x y)

/-- `remainder(x, y)`: if `lt(x, y)` then `Zero` else
`Rec(x, Zero, (z, w) => Cases(eq(pred(y), w), Zero, Succ(w)))`. -/
def remainder (x y : Nat) : Nat :=
  Cases (lt x y) Zero
    (Rec x Zero (fun z w => Cases (eq (pred y) w) Zero (Succ w)))

/-- `divide(x, y)`: if `lt(x, y)` then `Zero` else
`Rec(x, 1, (z, w) => Cases(eq(pred(y), remainder(z, y)), Succ(w), w))`. -/
def divide (x y : Nat) : Nat :=
  Cases (lt x y) Zero
    (Rec x 1 (fun z w => Cases (eq (pred y) (remainder z y)) (Succ w) w))

/-- `isPrime(x)`: if `eq(x, 1)` then `true` else
`eq(2, Rec(x, Zero, (z, w) => Cases(isZero(remainder(x, z)), Succ(w), w)))`. -/
def isPrime (x : Nat) : Bool :=
  Cases (eq x 1) true
    (eq 2 (Rec x Zero (fun z w => Cases (isZero (remainder x z)) (Succ w) w)))

/-- `compose(f, g) = x => f(g(x))`. -/
def compose (f g : Nat → Nat) : Nat → Nat :=
  fun x => f (g x)

/-- `iterate(f, n) = Rec(n, x => x, (z, w) => compose(f, w))`. -/
def iterate (f : Nat → Nat) (n : Nat) : Nat → Nat :=
  Rec n (fun x => x) (fun z w => compose f w)

/-- `ackermann(x) = Rec(x, Succ, (z, w) => iterate(w, w(Succ(Zero))))`. -/
def ackermann (x : Nat) : Nat → Nat :=
  Rec x Succ (fun z w => iterate w (w (Succ Zero)))

/-! ### Reduction lemmas for the recursor -/

@[simp] theorem Rec_zero {T : Type u} (s : T) (t : Nat → T → T) :
    Rec 0 s t = s := rfl

@[simp] theorem Rec_succ {T : Type u} (n : Nat) (s : T) (t : Nat → T → T) :
    Rec (n + 1) s t = t n (Rec n s t) := rfl

/-! ### Bridging the recursor-defined operations to Lean's `Nat` operations -/

theorem pred_eq (x : Nat) : pred x = x - 1 := by
  cases x with
  | zero => rfl
  | succ n => rfl

theorem subtract_eq (x y : Nat) : subtract x y = x - y := by
  induction y with
  | zero => rfl
  | succ n ih =>
    show pred (subtract x n) = x - (n + 1)
    rw [ih, pred_eq, Nat.sub_sub]

theorem isZero_eq (x : Nat) : isZero x = decide (x = 0) := by
  cases x with
  | zero => rfl
  | succ n => simp [isZero, Rec_succ]

theorem and_eq (x y : Bool) : and x y = (x && y) := by
  cases x <;> rfl

theorem not_eq (x : Bool) : not x = !x := by
  cases x <;> rfl

theorem eq_eq (x y : Nat) : eq x y = decide (x = y) := by
  show and (isZero (subtract x y)) (isZero (subtract y x)) = decide (x = y)
  rw [and_eq, isZero_eq, isZero_eq, subtract_eq, subtract_eq]
  apply Bool.eq_iff_iff.mpr
  simp only [Bool.and_eq_true, decide_eq_true_eq]
  omega

theorem lt_eq (x y : Nat) : lt x y = decide (x < y) := by
  show not (isZero (subtract y x)) = decide (x < y)
  rw [not_eq, isZero_eq, subtract_eq]
  apply Bool.eq_iff_iff.mpr
  simp only [Bool.not_eq_true', decide_eq_false_iff_not, decide_eq_true_eq]
  omega

theorem add_eq (x y : Nat) : add x y = x + y := by
  induction x with
  | zero => exact (Nat.zero_add y).symm
  | succ n ih =>
    show Succ (add n y) = n + 1 + y
    rw [ih]
    show n + y + 1 = n + 1 + y
    omega

theorem multiply_eq (x y : Nat) : multiply x y = x * y := by
  induction y with
  | zero => rfl
  | succ n ih =>
    show add x (multiply x n) = x * (n + 1)
    rw [add_eq, ih, Nat.mul_succ]
    omega

/-! ### Closed forms for `remainder` and `divide` -/

theorem remAux_eq (x y : Nat) (hy : 1 ≤ y) :
    Rec x Zero (fun z w => Cases (eq (pred y) w) Zero (Succ w)) = x % y := by
  induction x with
  | zero => exact (Nat.zero_mod y).symm
  | succ n ih =>
    rw [Rec_succ, ih]
    show Cases (eq (pred y) (n % y)) Zero (Succ (n % y)) = (n + 1) % y
    rw [eq_eq, pred_eq]
    simp only [Cases, decide_eq_true_eq, Succ, Zero]
    have hlt : n % y < y := Nat.mod_lt n (by omega)
    by_cases h : y - 1 = n % y
    · have h1 : (n + 1) % y = 0 := by
        have hadd : (n + 1) % y = (n % y + 1 % y) % y := Nat.add_mod n 1 y
        rcases Nat.lt_or_ge 1 y with h2 | h2
        · rw [hadd, Nat.mod_eq_of_lt h2, ← h, show y - 1 + 1 = y by omega,
            Nat.mod_self]
        · have hy1 : y = 1 := by omega
          simp [hy1, Nat.mod_one]
      rw [if_pos h, h1]
    · rw [if_neg h]
      have h2 : n % y + 1 < y := by omega
      rw [Nat.add_mod n 1 y, Nat.mod_eq_of_lt (show 1 < y by omega),
        Nat.mod_eq_of_lt h2]

theorem remainder_eq (x y : Nat) (hy : 1 ≤ y) :
    remainder x y = if x < y then 0 else x % y := by
  show Cases (lt x y)
      Zero (Rec x Zero (fun z w => Cases (eq (pred y) w) Zero (Succ w))) = _
  rw [lt_eq, remAux_eq x y hy]
  simp only [Cases, decide_eq_true_eq, Zero]

theorem remAux_zero (x : Nat) :
    Rec x Zero (fun z w => Cases (eq (pred 0) w) Zero (Succ w)) = 0 := by
  induction x with
  | zero => rfl
  | succ n ih =>
    rw [Rec_succ, ih]
    rfl

theorem remainder_zero (x : Nat) : remainder x 0 = 0 := by
  show Cases (lt x 0)
      Zero (Rec x Zero (fun z w => Cases (eq (pred 0) w) Zero (Succ w))) = 0
  rw [lt_eq, remAux_zero]
  simp [Cases, Zero]

theorem divAux_eq (x y : Nat) (hy : 2 ≤ y) :
    Rec x 1 (fun z w => Cases (eq (pred y) (remainder z y)) (Succ w) w) =
      max 1 (x / y) := by
  induction x with
  | zero =>
    rw [Rec_zero, Nat.zero_div]
    exact (Nat.max_eq_left (Nat.zero_le 1)).symm
  | succ n ih =>
    rw [Rec_succ, ih]
    show Cases (eq (pred y) (remainder n y))
        (Succ (max 1 (n / y))) (max 1 (n / y)) = max 1 ((n + 1) / y)
    rw [eq_eq, pred_eq, remainder_eq n y (by omega)]
    simp only [Cases, decide_eq_true_eq, Succ]
    by_cases hny : n < y
    · rw [if_pos hny, if_neg (show ¬ (y - 1 = 0) by omega)]
      have h0 : n / y = 0 := Nat.div_eq_of_lt hny
      have h1 : (n + 1) / y < 2 :=
        (Nat.div_lt_iff_lt_mul (show 0 < y by omega)).mpr (by omega)
      rw [h0, Nat.max_eq_left (by omega), Nat.max_eq_left (by omega)]
    · rw [if_neg hny]
      have hyx : y ≤ n := by omega
      have hd1 : 1 ≤ n / y := (Nat.one_le_div_iff (by omega)).mpr hyx
      have hm : n % y < y := Nat.mod_lt n (by omega)
      by_cases hc : y - 1 = n % y
      · rw [if_pos hc]
        have hdvd : y ∣ n + 1 := by
          apply Nat.dvd_of_mod_eq_zero
          rw [Nat.add_mod, Nat.mod_eq_of_lt (show 1 < y by omega), ← hc,
            show y - 1 + 1 = y by omega, Nat.mod_self]
        rw [Nat.succ_div, if_pos hdvd, Nat.max_eq_right hd1,
          Nat.max_eq_right (by omega)]
      · rw [if_neg hc]
        have hnd : ¬ y ∣ n + 1 := by
          intro hdvd
          have h0 : (n + 1) % y = 0 := Nat.mod_eq_zero_of_dvd hdvd
          rw [Nat.add_mod, Nat.mod_eq_of_lt (show 1 < y by omega),
            Nat.mod_eq_of_lt (show n % y + 1 < y by omega)] at h0
          omega
        rw [Nat.succ_div, if_neg hnd, Nat.add_zero]

theorem divide_eq (x y : Nat) (hy : 2 ≤ y) (hxy : y ≤ x) :
    divide x y = x / y := by
  show Cases (lt x y) Zero
      (Rec x 1 (fun z w => Cases (eq (pred y) (remainder z y)) (Succ w) w)) =
      x / y
  rw [lt_eq, divAux_eq x y hy]
  have h1 : ¬ x < y := by omega
  simp only [Cases, decide_eq_true_eq, if_neg h1]
  exact Nat.max_eq_right ((Nat.one_le_div_iff (by omega)).mpr hxy)

theorem divAux_zero (x : Nat) :
    Rec x 1 (fun z w => Cases (eq (pred 0) (remainder z 0)) (Succ w) w) =
      x + 1 := by
  induction x with
  | zero => rfl
  | succ n ih =>
    rw [Rec_succ, ih]
    show Cases (eq (pred 0) (remainder n 0)) (Succ (n + 1)) (n + 1) = n + 1 + 1
    rw [remainder_zero]
    rfl

theorem divide_zero (x : Nat) : divide x 0 = x + 1 := by
  show Cases (lt x 0) Zero
      (Rec x 1 (fun z w => Cases (eq (pred 0) (remainder z 0)) (Succ w) w)) =
      x + 1
  rw [lt_eq, divAux_zero]
  simp [Cases, Zero]

/-! ### Iteration -/

theorem iterate_succ_apply (f : Nat → Nat) (n x : Nat) :
    iterate f (n + 1) x = f (iterate f n x) := rfl

/-! ### Claim theorems -/

/-- Claim C3: the recursor satisfies its defining contract: for every base
value and step function, `Rec 0 base step = base`, and for every `n > 0`,
`Rec n base step = step (n-1) (Rec (n-1) base step)`. -/
theorem c3_recursor {T : Type} (n : Nat) (base : T) (step : Nat → T → T) :
    Rec 0 base step = base ∧
      (0 < n → Rec n base step = step (n - 1) (Rec (n - 1) base step)) := by
  constructor
  · rfl
  · intro h
    cases n with
    | zero => exact absurd h (Nat.lt_irrefl 0)
    | succ k => rfl

/-- Witness for C3 at `n = 3`, `base = 5`, `step = fun z w => z + w`. -/
theorem c3_recursor_witness :
    Rec 3 (5 : Nat) (fun z w => z + w) =
      (fun z w => z + w) 2 (Rec 2 (5 : Nat) (fun z w => z + w)) :=
  (c3_recursor 3 5 (fun z w => z + w)).2 (by decide)

/-- Claim C4: subtraction is truncated: `subtract a b = 0` whenever `a ≤ b`,
`subtract a 0 = a`, and `subtract` and `pred` never return a negative result
(in the `Nat` model their results are always `≥ 0`, saturating at zero). -/
theorem c4_truncated_sub (a b : Nat) :
    (a ≤ b → subtract a b = 0) ∧ subtract a 0 = a ∧
      0 ≤ subtract a b ∧ 0 ≤ pred a := by
  refine ⟨fun h => ?_, rfl, Nat.zero_le _, Nat.zero_le _⟩
  rw [subtract_eq]
  omega

/-- Witness for C4 at `a = 2`, `b = 5`. -/
theorem c4_truncated_sub_witness : subtract 2 5 = 0 :=
  (c4_truncated_sub 2 5).1 (by decide)

/-- Claim C5: iteration composition law: for every `f`, `m`, `n`, `x`,
`iterate f (m + n) x = iterate f m (iterate f n x)`. -/
theorem c5_iterate_add (f : Nat → Nat) (m n x : Nat) :
    iterate f (m + n) x = iterate f m (iterate f n x) := by
  induction m with
  | zero =>
    rw [Nat.zero_add]
    rfl
  | succ k ih =>
    rw [show k + 1 + n = (k + n) + 1 by omega, iterate_succ_apply, ih]
    exact (iterate_succ_apply f k (iterate f n x)).symm

/-- Claim C6: `add` and `multiply` are commutative and associative. -/
theorem c6_add_mul_comm_assoc (a b c : Nat) :
    add a b = add b a ∧ add (add a b) c = add a (add b c) ∧
      multiply a b = multiply b a ∧
      multiply (multiply a b) c = multiply a (multiply b c) := by
  simp only [add_eq, multiply_eq]
  exact ⟨Nat.add_comm a b, Nat.add_assoc a b c, Nat.mul_comm a b,
    Nat.mul_assoc a b c⟩

/-- Claim C9: division by zero has a definite, error-free result: for every
`x`, `remainder x 0 = 0` and `divide x 0 = x + 1`. -/
theorem c9_div_by_zero (x : Nat) :
    remainder x 0 = 0 ∧ divide x 0 = x + 1 :=
  ⟨remainder_zero x, divide_zero x⟩

/-- Claim C8: Ackermann known values: `ackermann 0 1 = 2`,
`ackermann 0 2 = 3`, `ackermann 1 0 = 2`, `ackermann 1 1 = 3`. -/
theorem c8_ackermann_values :
    ackermann 0 1 = 2 ∧ ackermann 0 2 = 3 ∧
      ackermann 1 0 = 2 ∧ ackermann 1 1 = 3 :=
  ⟨rfl, rfl, rfl, rfl⟩

/-- Claim C2 (divergence evidence): the code's `ackermann (m+1)` is
`iterate (ackermann m) (ackermann m 1)`, not
`fun n => iterate (ackermann m) n (ackermann m 1)` as the Ackermann–Péter
recurrence (and the source's own doc comment) requires; at `m = 1`, `n = 0`
the code yields `6` while the recurrence yields `3`. -/
theorem c2_ackermann_bug :
    ackermann 2 0 = 6 ∧ iterate (ackermann 1) 0 (ackermann 1 1) = 3 ∧
      ackermann 2 0 ≠ iterate (ackermann 1) 0 (ackermann 1 1) :=
  ⟨rfl, rfl, by decide⟩

/-- Claim C1, corrected: for `b > 0` the bound `remainder a b < b` holds for
all `a`; the identity `a = add (multiply (divide a b) b) (remainder a b)`
holds whenever `2 ≤ b` and `b ≤ a` (for `0 < a < b` both `divide` and
`remainder` return `0`, and for `b = 1` the quotient overshoots by one). -/
theorem c1_div_mod (a b : Nat) :
    (0 < b → remainder a b < b) ∧
      (2 ≤ b → b ≤ a → add (multiply (divide a b) b) (remainder a b) = a) := by
  constructor
  · intro hb
    rw [remainder_eq a b hb]
    by_cases h : a < b
    · rw [if_pos h]
      omega
    · rw [if_neg h]
      exact Nat.mod_lt a hb
  · intro hb hba
    rw [divide_eq a b hb hba, remainder_eq a b (by omega),
      if_neg (by omega), add_eq, multiply_eq, Nat.mul_comm (a / b) b]
    exact Nat.div_add_mod a b

/-- Witness for C1 at `a = 10`, `b = 3`. -/
theorem c1_div_mod_witness :
    remainder 10 3 < 3 ∧
      add (multiply (divide 10 3) 3) (remainder 10 3) = 10 :=
  ⟨(c1_div_mod 10 3).1 (by decide), (c1_div_mod 10 3).2 (by decide) (by decide)⟩

/-- Counterexample to C1 as stated: at `a = 1`, `b = 2` (so `b > 0`), the
code gives `divide 1 2 = 0` and `remainder 1 2 = 0`, hence
`add (multiply (divide 1 2) 2) (remainder 1 2) = 0 ≠ 1`. -/
theorem c1_div_mod_counterexample :
    ¬ (1 = add (multiply (divide 1 2) 2) (remainder 1 2)) := by decide

/-! ### Primality -/

theorem countDiv_eq_card (x n : Nat) :
    Rec n Zero (fun z w => Cases (isZero (remainder x z)) (Succ w) w) =
      ((Finset.range n).filter (fun z => isZero (remainder x z) = true)).card := by
  induction n with
  | zero => simp [Zero]
  | succ n ih =>
    rw [Rec_succ, ih, Finset.range_succ, Finset.filter_insert]
    show Cases (isZero (remainder x n)) (Succ _) _ = _
    by_cases h : isZero (remainder x n) = true
    · rw [h, if_pos rfl]
      show Succ _ = _
      rw [Finset.card_insert_of_not_mem (fun hmem =>
        Finset.not_mem_range_self (Finset.mem_of_mem_filter n hmem))]
      rfl
    · rw [Bool.not_eq_true] at h
      rw [h, if_neg Bool.false_ne_true]
      rfl

theorem isZero_remainder_iff (x z : Nat) (hz : z < x) :
    isZero (remainder x z) = true ↔ z = 0 ∨ z ∣ x := by
  cases z with
  | zero => simp [remainder_zero, isZero_eq]
  | succ m =>
    rw [remainder_eq x (m + 1) (by omega), if_neg (by omega), isZero_eq,
      decide_eq_true_eq]
    constructor
    · intro h
      exact Or.inr (Nat.dvd_of_mod_eq_zero h)
    · rintro (h | h)
      · omega
      · exact Nat.mod_eq_zero_of_dvd h

theorem filter_divisors (x : Nat) (hx : 2 ≤ x) :
    (Finset.range x).filter (fun z => isZero (remainder x z) = true) =
      insert 0 (insert 1 ((Finset.Ico 2 x).filter (fun z => z ∣ x))) := by
  ext z
  simp only [Finset.mem_filter, Finset.mem_range, Finset.mem_insert,
    Finset.mem_Ico]
  constructor
  · rintro ⟨hz, hp⟩
    rcases (isZero_remainder_iff x z hz).mp hp with h0 | hdvd
    · exact Or.inl h0
    · rcases Nat.lt_or_ge z 2 with h2 | h2
      · interval_cases z
        · exact Or.inl rfl
        · exact Or.inr (Or.inl rfl)
      · exact Or.inr (Or.inr ⟨⟨h2, hz⟩, hdvd⟩)
  · rintro (h0 | h1 | ⟨⟨h2, hzx⟩, hdvd⟩)
    · subst h0
      exact ⟨by omega, (isZero_remainder_iff x 0 (by omega)).mpr (Or.inl rfl)⟩
    · subst h1
      exact ⟨by omega,
        (isZero_remainder_iff x 1 (by omega)).mpr (Or.inr (Nat.one_dvd x))⟩
    · exact ⟨hzx, (isZero_remainder_iff x z hzx).mpr (Or.inr hdvd)⟩

theorem isPrime_true_iff (x : Nat) (hx : 2 ≤ x) :
    isPrime x = true ↔ ∀ d, d < x → 2 ≤ d → ¬ d ∣ x := by
  have h1 : eq x 1 = false := by
    rw [eq_eq]
    simp only [decide_eq_false_iff_not]
    omega
  show Cases (eq x 1) true
      (eq 2 (Rec x Zero (fun z w => Cases (isZero (remainder x z)) (Succ w) w)))
      = true ↔ _
  rw [h1]
  show eq 2 (Rec x Zero (fun z w => Cases (isZero (remainder x z)) (Succ w) w))
      = true ↔ _
  rw [eq_eq, decide_eq_true_eq, countDiv_eq_card, filter_divisors x hx]
  have hT : ∀ d, d ∈ (Finset.Ico 2 x).filter (fun z => z ∣ x) ↔
      (2 ≤ d ∧ d < x) ∧ d ∣ x := by
    intro d
    simp [Finset.mem_filter, Finset.mem_Ico]
  have h0 : (0 : Nat) ∉ insert 1 ((Finset.Ico 2 x).filter (fun z => z ∣ x)) := by
    simp only [Finset.mem_insert, hT]
    omega
  have h1' : (1 : Nat) ∉ (Finset.Ico 2 x).filter (fun z => z ∣ x) := by
    rw [hT]
    omega
  rw [Finset.card_insert_of_not_mem h0, Finset.card_insert_of_not_mem h1']
  constructor
  · intro hcard d hdx hd2 hdvd
    have hmem : d ∈ (Finset.Ico 2 x).filter (fun z => z ∣ x) :=
      (hT d).mpr ⟨⟨hd2, hdx⟩, hdvd⟩
    have : ((Finset.Ico 2 x).filter (fun z => z ∣ x)).card = 0 := by omega
    rw [Finset.card_eq_zero] at this
    rw [this] at hmem
    exact absurd hmem (Finset.not_mem_empty d)
  · intro hall
    have hempty : (Finset.Ico 2 x).filter (fun z => z ∣ x) = ∅ := by
      apply Finset.eq_empty_iff_forall_not_mem.mpr
      intro d hmem
      rcases (hT d).mp hmem with ⟨⟨hd2, hdx⟩, hdvd⟩
      exact hall d hdx hd2 hdvd
    rw [hempty, Finset.card_empty]

/-- Claim C10: for every `x ≥ 2`, `isPrime x = true` iff `x` has no divisor
`d` with `2 ≤ d < x` (the divisor count over `z < x` always includes
`z = 0` and `z = 1`, since `remainder x 0 = 0` and `remainder x 1 = 0`, so
the count equals exactly `2` precisely for primes). -/
theorem c10_isPrime_no_divisors (x : Nat) (hx : 2 ≤ x) :
    (isPrime x = true ↔ ∀ d, d < x → 2 ≤ d → ¬ d ∣ x) ∧
      remainder x 0 = 0 ∧ remainder x 1 = 0 := by
  refine ⟨isPrime_true_iff x hx, remainder_zero x, ?_⟩
  rw [remainder_eq x 1 (by omega), if_neg (by omega), Nat.mod_one]

/-- Witness for C10 at `x = 5`. -/
theorem c10_isPrime_no_divisors_witness : isPrime 5 = true :=
  ((c10_isPrime_no_divisors 5 (by decide)).1).mpr (by decide)

/-- Claim C7: primality scenarios: `isPrime 1 = true` (quirk of this
definition), `isPrime 2 = true`, `isPrime 9 = false`, `isPrime 127 = true`. -/
theorem c7_isPrime_scenarios :
    isPrime 1 = true ∧ isPrime 2 = true ∧ isPrime 9 = false ∧
      isPrime 127 = true := by
  refine ⟨rfl, rfl, ?_, (isPrime_true_iff 127 (by omega)).mpr (by decide)⟩
  rw [Bool.eq_false_iff]
  intro h9
  exact (isPrime_true_iff 9 (by omega)).mp h9 3 (by omega) (by omega) ⟨3, rfl⟩
